import Mathlib

set_option maxHeartbeats 1000000

/-!
# Hospital command center: admission / discharge workflow model

A shallow embedding of the state-transition core of the hospital
command-center application (`App.tsx`): the domain records, the persisted
notification store, the admission workflow `handleAdmitPatient`, the
discharge workflow `handleDischargePatient`, and the startup loader
`getInitialState`.  The external AI resolver is an opaque collaborator:
its outcome (a thrown error, or a possibly-null response object) is passed
to the workflow as a value.  Nondeterministically generated strings
(`Date.now()`, `crypto.randomUUID()`, `new Date().toISOString()`) are
threaded as explicit parameters.
-/

/-- Equipment record: `{id, name, total, available}`. -/
structure Equipment where
  id : String
  name : String
  total : Nat
  available : Nat
deriving DecidableEq

/-- A hospital section (ward): `{id, name, capacity, equipment}`. -/
structure Section where
  id : String
  name : String
  capacity : Nat
  equipment : List Equipment
deriving DecidableEq

/-- A staff member: `{id, name, role}`; the role is free text, with
`"nurse"` (case-insensitively) distinguishing nurses from doctors. -/
structure StaffMember where
  id : String
  name : String
  role : String
deriving DecidableEq

/-- Input data for an admission: `{name, age, symptoms, seriousness}`. -/
structure PatientAdmissionData where
  name : String
  age : Nat
  symptoms : String
  seriousness : Nat
deriving DecidableEq

/-- A patient record extends the admission data with the generated id, the
three assignment ids, the admission date and an optional discharge date. -/
structure Patient extends PatientAdmissionData where
  id : String
  assignedSectionId : String
  assignedDoctorId : String
  assignedNurseId : String
  admissionDate : String
  dischargeDate : Option String := none
deriving DecidableEq

/-- The resolver's response object.  The runtime value may miss a field or
carry an empty string; the workflow only ever tests the three ids for
falsiness, so a missing id and an empty-string id behave identically and
are both modelled as `""`.  The `reasoning` field is carried but unused. -/
structure Assignment where
  sectionId : String
  doctorId : String
  nurseId : String
  reasoning : String := ""
deriving DecidableEq

/-- A notification persisted for one staff member. -/
structure Notification where
  id : String
  patientName : String
  patientSymptoms : String
  message : String
  timestamp : String
deriving DecidableEq

/-- The value found in persisted storage under one notification key:
absent, a well-formed stored list, or a corrupt value on which
`JSON.parse` throws (`createNotification` catches that throw and leaves
the store untouched). -/
inductive NotifState where
  | absent
  | corrupt
  | stored (l : List Notification)
deriving DecidableEq

/-- The in-memory application state together with the persisted
per-staff notification store (keyed by storage key). -/
structure AppModel where
  sections : List Section
  staff : List StaffMember
  admittedPatients : List Patient
  dischargedPatients : List Patient
  notifications : String → NotifState

/-- `hospital_notifications_${staffId}`, the storage key of one staff
member's notification list. -/
def notificationKey (staffId : String) : String :=
  "hospital_notifications_" ++ staffId

/-- The notification object built by `createNotification`. -/
def mkNotification (patient : Patient) (uuid nowIso : String) : Notification :=
  { id := "notif_" ++ uuid
  , patientName := patient.name
  , patientSymptoms := patient.symptoms
  , message := "You have been assigned a new patient: " ++ patient.name
      ++ " (Age: " ++ toString patient.age ++ ")"
  , timestamp := nowIso }

/-- `createNotification(staffId, patient)`: read the staff member's stored
list (treating an absent value as `[]`), push one new notification, and
write the list back.  A corrupt stored value makes `JSON.parse` throw;
the surrounding catch logs the error and the store is left unchanged. -/
def createNotification (store : String → NotifState) (staffId : String)
    (patient : Patient) (uuid nowIso : String) : String → NotifState :=
  let key := notificationKey staffId
  match store key with
  | .corrupt => store
  | .absent => fun k =>
      if k = key then .stored [mkNotification patient uuid nowIso] else store k
  | .stored l => fun k =>
      if k = key then .stored (l ++ [mkNotification patient uuid nowIso]) else store k

/-- JavaScript's `toLowerCase()` as used on role strings (ASCII
lowercasing, applied character by character). -/
def lowerString (s : String) : String :=
  String.mk (s.data.map Char.toLower)

/-- Number of admitted patients assigned to the section with this id. -/
def sectionOccupancy (admitted : List Patient) (sectionId : String) : Nat :=
  (admitted.filter (fun p => p.assignedSectionId == sectionId)).length

/-- The `availableSections` candidate list: sections whose admitted count
is below capacity. -/
def availableSectionsOf (st : AppModel) : List Section :=
  st.sections.filter (fun s =>
    decide (sectionOccupancy st.admittedPatients s.id < s.capacity))

/-- Doctor ids currently in use on admitted patients (the `assignedDoctorIds` set). -/
def assignedDoctorIdsOf (admitted : List Patient) : List String :=
  admitted.map (·.assignedDoctorId)

/-- Nurse ids currently in use on admitted patients (the `assignedNurseIds` set). -/
def assignedNurseIdsOf (admitted : List Patient) : List String :=
  admitted.map (·.assignedNurseId)

/-- The `availableDoctors` candidate list: staff whose role is not
`"nurse"` (case-insensitively) and whose id is not an
`assignedDoctorId` of any admitted patient. -/
def availableDoctorsOf (st : AppModel) : List StaffMember :=
  st.staff.filter (fun s =>
    lowerString s.role != "nurse"
      && !((assignedDoctorIdsOf st.admittedPatients).contains s.id))

/-- The `availableNurses` candidate list: staff whose role is `"nurse"`
(case-insensitively) and whose id is not an `assignedNurseId` of any
admitted patient. -/
def availableNursesOf (st : AppModel) : List StaffMember :=
  st.staff.filter (fun s =>
    lowerString s.role == "nurse"
      && !((assignedNurseIdsOf st.admittedPatients).contains s.id))

/-- The patient record committed by a successful admission. -/
def mkNewPatient (patientData : PatientAdmissionData) (a : Assignment)
    (newId nowIso : String) : Patient :=
  { toPatientAdmissionData := patientData
  , id := newId
  , assignedSectionId := a.sectionId
  , assignedDoctorId := a.doctorId
  , assignedNurseId := a.nurseId
  , admissionDate := nowIso
  , dischargeDate := none }

/-- How one admission attempt ended: a pre-flight resource-exhaustion
error (bed / doctor / nurse, in that checking order), a post-resolution
failure, or success. -/
inductive AdmitResult where
  | noBeds
  | noDoctors
  | noNurses
  | resolverUnavailable
  | invalidAssignment
  | nonexistentSection
  | sectionNowFull (sectionName : String)
  | success
deriving DecidableEq

/-- Result of one run of the admission workflow: the new application
state, how the attempt ended, and whether the resolver was invoked. -/
structure AdmitOutcome where
  state : AppModel
  result : AdmitResult
  resolverInvoked : Bool

/-- `handleAdmitPatient(patientData)`.  `resolver` is the outcome the
external AI call would produce at its single invocation: `.error ()` if
the awaited call throws, otherwise the (possibly null) response object.
`newId` is the generated patient id, `nowIso` the current timestamp,
`uuidDoc`/`uuidNur` the uuids of the two notifications. -/
def handleAdmitPatient (st : AppModel) (patientData : PatientAdmissionData)
    (resolver : Except Unit (Option Assignment))
    (newId nowIso uuidDoc uuidNur : String) : AdmitOutcome :=
  if (availableSectionsOf st).length = 0 then
    ⟨st, .noBeds, false⟩
  else if (availableDoctorsOf st).length = 0 then
    ⟨st, .noDoctors, false⟩
  else if (availableNursesOf st).length = 0 then
    ⟨st, .noNurses, false⟩
  else
    match resolver with
    | .error _ => ⟨st, .resolverUnavailable, true⟩
    | .ok none => ⟨st, .invalidAssignment, true⟩
    | .ok (some a) =>
      if a.sectionId = "" ∨ a.doctorId = "" ∨ a.nurseId = "" then
        ⟨st, .invalidAssignment, true⟩
      else
        match st.sections.find? (fun s => s.id == a.sectionId) with
        | none => ⟨st, .nonexistentSection, true⟩
        | some assignedSection =>
          if assignedSection.capacity ≤ sectionOccupancy st.admittedPatients a.sectionId then
            ⟨st, .sectionNowFull assignedSection.name, true⟩
          else
            let newPatient := mkNewPatient patientData a newId nowIso
            let store1 :=
              match st.staff.find? (fun s => s.id == newPatient.assignedDoctorId) with
              | some doc => createNotification st.notifications doc.id newPatient uuidDoc nowIso
              | none => st.notifications
            let store2 :=
              match st.staff.find? (fun s => s.id == newPatient.assignedNurseId) with
              | some nur => createNotification store1 nur.id newPatient uuidNur nowIso
              | none => store1
            ⟨{ st with
                admittedPatients := st.admittedPatients ++ [newPatient]
              , notifications := store2 }, .success, true⟩

/-- `handleDischargePatient(patientId)`: if no admitted patient has the
id, return unchanged; otherwise drop every admitted patient with the id
and prepend the first match, stamped with `dischargeDate`, to the
discharged collection. -/
def handleDischargePatient (st : AppModel) (patientId nowIso : String) : AppModel :=
  match st.admittedPatients.find? (fun p => p.id == patientId) with
  | none => st
  | some patientToDischarge =>
    { st with
      admittedPatients := st.admittedPatients.filter (fun p => p.id != patientId)
    , dischargedPatients :=
        { patientToDischarge with dischargeDate := some nowIso } :: st.dischargedPatients }

/-- What `getInitialState` finds under the `hospital_config` key:
nothing (or an empty string, which the `if (savedState)` test treats the
same way); a stored value on which obtaining `{sections, staff}` throws
inside the `try` (a JSON syntax error, or JSON `null`, whose
destructuring throws); or a successfully parsed value whose two fields
are each either a stored list or absent/falsy (the `|| []` default turns
the latter into `[]`, modelled by `Option`). -/
inductive StoredConfig where
  | absent
  | unparseable
  | parsed (sections : Option (List Section)) (staff : Option (List StaffMember))
deriving DecidableEq

/-- The record `getInitialState` returns. -/
structure InitialState where
  sections : List Section
  staff : List StaffMember
  isInitialSetup : Bool
deriving DecidableEq

/-- `getInitialState()`: read the saved configuration; any failure inside
the `try` falls through to the first-run result. -/
def getInitialState : StoredConfig → InitialState
  | .absent => ⟨[], [], true⟩
  | .unparseable => ⟨[], [], true⟩
  | .parsed s t => ⟨s.getD [], t.getD [], false⟩

/-- One user-level operation on the running app: an admission attempt
(with the resolver outcome and the generated strings baked in) or a
discharge. -/
inductive Op where
  | admitPatient (patientData : PatientAdmissionData)
      (resolver : Except Unit (Option Assignment))
      (newId nowIso uuidDoc uuidNur : String)
  | discharge (patientId nowIso : String)

/-- Apply one operation to the state. -/
def applyOp (st : AppModel) : Op → AppModel
  | .admitPatient d r newId nowIso u1 u2 =>
      (handleAdmitPatient st d r newId nowIso u1 u2).state
  | .discharge pid nowIso => handleDischargePatient st pid nowIso

/-- Run a sequence of operations. -/
def runOps (st : AppModel) (ops : List Op) : AppModel :=
  ops.foldl applyOp st

/-- The resolver outcome baked into an operation honours the resolver
contract at the state where it fires: whenever the workflow would
actually consult the resolver (all three pre-flight checks pass) and the
outcome is a response object, its doctor and nurse ids are drawn from
the candidate lists that the workflow passes to the resolver. -/
def ResolverFaithful (st : AppModel) : Op → Prop
  | .admitPatient _ r _ _ _ _ =>
      (availableSectionsOf st).length ≠ 0 →
      (availableDoctorsOf st).length ≠ 0 →
      (availableNursesOf st).length ≠ 0 →
      match r with
      | .ok (some a) =>
          a.doctorId ∈ (availableDoctorsOf st).map (·.id)
            ∧ a.nurseId ∈ (availableNursesOf st).map (·.id)
      | _ => True
  | .discharge _ _ => True

/-- A whole operation sequence honours the resolver contract, step by step. -/
def FaithfulTrace : AppModel → List Op → Prop
  | _, [] => True
  | st, op :: ops => ResolverFaithful st op ∧ FaithfulTrace (applyOp st op) ops

/-!
## Concrete fixtures

Small configurations used by witnesses and counterexamples.
-/

/-- An empty persisted notification store. -/
def emptyNotifStore : String → NotifState := fun _ => .absent

/-- A two-bed ward. -/
def wardA : Section := ⟨"s1", "Ward A", 2, []⟩

/-- A doctor. -/
def doctorOne : StaffMember := ⟨"d1", "Dr One", "Doctor"⟩

/-- A second doctor. -/
def doctorTwo : StaffMember := ⟨"d2", "Dr Two", "Doctor"⟩

/-- A nurse. -/
def nurseOne : StaffMember := ⟨"n1", "Nurse One", "Nurse"⟩

/-- A second nurse. -/
def nurseTwo : StaffMember := ⟨"n2", "Nurse Two", "Nurse"⟩

/-- Admission data used by concrete runs. -/
def alice : PatientAdmissionData := ⟨"Alice", 30, "fever", 5⟩

/-- A small fully-stocked hospital state with nobody admitted. -/
def baseState : AppModel :=
  ⟨[wardA], [doctorOne, doctorTwo, nurseOne, nurseTwo], [], [], emptyNotifStore⟩

/-!
## General shape of one admission attempt
-/

/-- Case analysis of `handleAdmitPatient`: every run either leaves the
whole state untouched and does not report success, or reports success,
with the resolver having produced a response whose three ids are
non-empty, whose section id is found in the full section list with spare
capacity at commit time, and with exactly the new patient appended. -/
theorem admit_outcome (st : AppModel) (d : PatientAdmissionData)
    (r : Except Unit (Option Assignment)) (newId nowIso u1 u2 : String) :
    ((handleAdmitPatient st d r newId nowIso u1 u2).state = st
      ∧ (handleAdmitPatient st d r newId nowIso u1 u2).result ≠ .success)
    ∨ (∃ a sec, r = .ok (some a)
        ∧ (handleAdmitPatient st d r newId nowIso u1 u2).result = .success
        ∧ a.sectionId ≠ "" ∧ a.doctorId ≠ "" ∧ a.nurseId ≠ ""
        ∧ st.sections.find? (fun s => s.id == a.sectionId) = some sec
        ∧ sectionOccupancy st.admittedPatients a.sectionId < sec.capacity
        ∧ (handleAdmitPatient st d r newId nowIso u1 u2).state.admittedPatients
            = st.admittedPatients ++ [mkNewPatient d a newId nowIso]
        ∧ (handleAdmitPatient st d r newId nowIso u1 u2).state.sections = st.sections
        ∧ (handleAdmitPatient st d r newId nowIso u1 u2).state.staff = st.staff
        ∧ (handleAdmitPatient st d r newId nowIso u1 u2).state.dischargedPatients
            = st.dischargedPatients) := by
  unfold handleAdmitPatient
  by_cases h1 : (availableSectionsOf st).length = 0
  · rw [if_pos h1]; exact Or.inl ⟨rfl, fun h => nomatch h⟩
  rw [if_neg h1]
  by_cases h2 : (availableDoctorsOf st).length = 0
  · rw [if_pos h2]; exact Or.inl ⟨rfl, fun h => nomatch h⟩
  rw [if_neg h2]
  by_cases h3 : (availableNursesOf st).length = 0
  · rw [if_pos h3]; exact Or.inl ⟨rfl, fun h => nomatch h⟩
  rw [if_neg h3]
  cases r with
  | error e => exact Or.inl ⟨rfl, fun h => nomatch h⟩
  | ok o =>
    cases o with
    | none => exact Or.inl ⟨rfl, fun h => nomatch h⟩
    | some a =>
      dsimp only
      by_cases h4 : a.sectionId = "" ∨ a.doctorId = "" ∨ a.nurseId = ""
      · rw [if_pos h4]; exact Or.inl ⟨rfl, fun h => nomatch h⟩
      rw [if_neg h4]
      push_neg at h4
      cases hfind : st.sections.find? (fun s => s.id == a.sectionId) with
      | none => exact Or.inl ⟨rfl, fun h => nomatch h⟩
      | some sec =>
        dsimp only
        by_cases h5 : sec.capacity ≤ sectionOccupancy st.admittedPatients a.sectionId
        · rw [if_pos h5]; exact Or.inl ⟨rfl, fun h => nomatch h⟩
        rw [if_neg h5]
        exact Or.inr ⟨a, sec, rfl, rfl, h4.1, h4.2.1, h4.2.2, hfind,
          Nat.lt_of_not_le h5, rfl, rfl, rfl, rfl⟩

/-!
## C1: commit-or-nothing for admissions
-/

/-- Claim C1, as stated, is false: the workflow validates the resolved
section id against the section list but never validates the doctor or
nurse ids against the staff list.  Here the resolver names the doctor id
`"ghost"`, which belongs to no staff member, yet the admission succeeds
and appends a patient whose `assignedDoctorId` references nobody in the
configuration at commit time. -/
theorem claimC1_counterexample :
    ((handleAdmitPatient baseState alice (.ok (some ⟨"s1", "ghost", "n1", "r"⟩))
        "p1" "T1" "u1" "u2").state.admittedPatients ≠ baseState.admittedPatients)
  ∧ (∀ p ∈ (handleAdmitPatient baseState alice (.ok (some ⟨"s1", "ghost", "n1", "r"⟩))
        "p1" "T1" "u1" "u2").state.admittedPatients,
      ∀ s ∈ baseState.staff, s.id ≠ p.assignedDoctorId)
  ∧ (handleAdmitPatient baseState alice (.ok (some ⟨"s1", "ghost", "n1", "r"⟩))
        "p1" "T1" "u1" "u2").result = .success := by decide

/-- Claim C1 (amended): on every admission attempt, either the attempt
reports success and exactly one new patient is appended, with all four
assignment fields populated and `assignedSectionId` referencing a section
that exists, with spare capacity, in the configuration at commit time; or
the attempt does not report success and the admitted collection is
unchanged — never both.  (The doctor and nurse ids are populated but
taken from the resolver response unvalidated, so they need not reference
existing staff members.) -/
theorem admit_commit_or_unchanged (st : AppModel) (d : PatientAdmissionData)
    (r : Except Unit (Option Assignment)) (newId nowIso u1 u2 : String) :
    ((handleAdmitPatient st d r newId nowIso u1 u2).result = .success
      ∧ ∃ p, (handleAdmitPatient st d r newId nowIso u1 u2).state.admittedPatients
            = st.admittedPatients ++ [p]
          ∧ p.assignedSectionId ≠ "" ∧ p.assignedDoctorId ≠ "" ∧ p.assignedNurseId ≠ ""
          ∧ p.admissionDate = nowIso ∧ p.id = newId
          ∧ ∃ s, s ∈ st.sections ∧ s.id = p.assignedSectionId
              ∧ sectionOccupancy st.admittedPatients s.id < s.capacity)
  ∨ ((handleAdmitPatient st d r newId nowIso u1 u2).result ≠ .success
      ∧ (handleAdmitPatient st d r newId nowIso u1 u2).state.admittedPatients
          = st.admittedPatients) := by
  rcases admit_outcome st d r newId nowIso u1 u2 with ⟨hst, hres⟩ |
    ⟨a, sec, hr, hres, h1, h2, h3, hfind, hocc, hadm, _, _, _⟩
  · exact Or.inr ⟨hres, by rw [hst]⟩
  · have hsec : sec.id = a.sectionId := by
      simpa using List.find?_some hfind
    refine Or.inl ⟨hres, mkNewPatient d a newId nowIso, hadm, h1, h2, h3, rfl, rfl,
      sec, List.mem_of_find?_eq_some hfind, hsec, ?_⟩
    rw [hsec]; exact hocc

/-!
## C5: failed resolutions leave no trace
-/

/-- Claim C5: if the resolver call throws, or the response is absent or
missing one of the three ids, or the resolved section id is not in the
section list, or the resolved section is at capacity, then the admission
does not succeed, the admitted collection is unchanged, and no
notification is written. -/
theorem admit_bad_resolution_no_effect (st : AppModel) (d : PatientAdmissionData)
    (r : Except Unit (Option Assignment)) (newId nowIso u1 u2 : String)
    (hbad : r = .error ()
      ∨ r = .ok none
      ∨ ∃ a, r = .ok (some a)
          ∧ (a.sectionId = "" ∨ a.doctorId = "" ∨ a.nurseId = ""
            ∨ st.sections.find? (fun s => s.id == a.sectionId) = none
            ∨ ∃ sec, st.sections.find? (fun s => s.id == a.sectionId) = some sec
                ∧ sec.capacity ≤ sectionOccupancy st.admittedPatients a.sectionId)) :
    (handleAdmitPatient st d r newId nowIso u1 u2).state.admittedPatients
        = st.admittedPatients
    ∧ (handleAdmitPatient st d r newId nowIso u1 u2).result ≠ .success
    ∧ (handleAdmitPatient st d r newId nowIso u1 u2).state.notifications
        = st.notifications := by
  rcases admit_outcome st d r newId nowIso u1 u2 with ⟨hst, hres⟩ |
    ⟨a, sec, hr, hres, h1, h2, h3, hfind, hocc, _⟩
  · exact ⟨by rw [hst], hres, by rw [hst]⟩
  · exfalso
    rcases hbad with h | h | ⟨a', ha', hcase⟩
    · rw [h] at hr; exact nomatch hr
    · rw [h] at hr; exact nomatch hr
    · rw [ha'] at hr
      have ha : a' = a := by
        injection hr with hr'; injection hr'
      subst ha
      rcases hcase with h | h | h | h | ⟨sec', hfind', hle⟩
      · exact h1 h
      · exact h2 h
      · exact h3 h
      · rw [hfind] at h; exact nomatch h
      · rw [hfind] at hfind'
        have heq : sec' = sec := by
          injection hfind' with h
          exact h.symm
        subst heq
        exact Nat.not_le.mpr hocc hle

/-- Witness for C5: a concrete run whose resolver call throws. -/
theorem admit_bad_resolution_no_effect_witness :
    (handleAdmitPatient baseState alice (.error ()) "p1" "T1" "u1" "u2").state.admittedPatients
        = baseState.admittedPatients
    ∧ (handleAdmitPatient baseState alice (.error ()) "p1" "T1" "u1" "u2").result ≠ .success
    ∧ (handleAdmitPatient baseState alice (.error ()) "p1" "T1" "u1" "u2").state.notifications
        = baseState.notifications :=
  admit_bad_resolution_no_effect baseState alice (.error ()) "p1" "T1" "u1" "u2" (Or.inl rfl)

/-!
## C6, C9, C10: discharge behaviour and frame conditions
-/

/-- An admitted patient used by concrete discharge runs. -/
def patientOne : Patient := ⟨alice, "p1", "s1", "d1", "n1", "T1", none⟩

/-- A second admitted patient with a distinct id. -/
def patientTwo : Patient := ⟨alice, "p2", "s1", "d2", "n2", "T2", none⟩

/-- A variant of `patientOne` sharing its id (for duplicate-id runs). -/
def patientOneBis : Patient := ⟨alice, "p1", "s1", "d2", "n2", "T2", none⟩

/-- State with two admitted patients with distinct ids. -/
def twoAdmittedState : AppModel :=
  ⟨[wardA], [doctorOne, doctorTwo, nurseOne, nurseTwo], [patientOne, patientTwo],
    [], emptyNotifStore⟩

/-- State whose admitted collection holds two patients with the same id. -/
def duplicateIdState : AppModel :=
  ⟨[wardA], [doctorOne, doctorTwo, nurseOne, nurseTwo], [patientOne, patientOneBis],
    [], emptyNotifStore⟩

/-- Claim C6: if some admitted patient carries the discharged id, the
workflow removes it from the admitted collection and prepends exactly one
record to the discharged collection — the first match, identical except
that `dischargeDate` is set to the current time; if no admitted patient
carries the id, the whole state is left unchanged (and, the workflow
being a total function, no error is raised either way). -/
theorem handleDischargePatient_spec (st : AppModel) (pid nowIso : String) :
    ((∃ p ∈ st.admittedPatients, p.id = pid) →
      ∃ f, st.admittedPatients.find? (fun p => p.id == pid) = some f
        ∧ f ∈ st.admittedPatients ∧ f.id = pid
        ∧ (handleDischargePatient st pid nowIso).admittedPatients
            = st.admittedPatients.filter (fun p => p.id != pid)
        ∧ (∀ q ∈ (handleDischargePatient st pid nowIso).admittedPatients, q.id ≠ pid)
        ∧ (handleDischargePatient st pid nowIso).dischargedPatients
            = { f with dischargeDate := some nowIso } :: st.dischargedPatients)
  ∧ ((∀ p ∈ st.admittedPatients, p.id ≠ pid) →
      handleDischargePatient st pid nowIso = st) := by
  constructor
  · rintro ⟨p, hp, hpid⟩
    have hs : (st.admittedPatients.find? (fun p => p.id == pid)).isSome := by
      rw [List.find?_isSome]
      exact ⟨p, hp, by simpa using hpid⟩
    obtain ⟨f, hf⟩ := Option.isSome_iff_exists.mp hs
    refine ⟨f, hf, List.mem_of_find?_eq_some hf, by simpa using List.find?_some hf,
      ?_, ?_, ?_⟩
    · unfold handleDischargePatient
      rw [hf]
    · intro q hq
      unfold handleDischargePatient at hq
      rw [hf] at hq
      have := (List.mem_filter.mp hq).2
      simpa using this
    · unfold handleDischargePatient
      rw [hf]
  · intro h
    have hf : st.admittedPatients.find? (fun p => p.id == pid) = none := by
      rw [List.find?_eq_none]
      intro p hp
      simpa using h p hp
    unfold handleDischargePatient
    rw [hf]

/-- Witness for C6: discharging `"p1"` from a state with two admitted
patients removes it and prepends its stamped copy. -/
theorem handleDischargePatient_spec_witness :
    (handleDischargePatient twoAdmittedState "p1" "T9").admittedPatients
        = twoAdmittedState.admittedPatients.filter (fun p => p.id != "p1")
  ∧ (handleDischargePatient twoAdmittedState "p1" "T9").dischargedPatients
        = { patientOne with dischargeDate := some "T9" } :: twoAdmittedState.dischargedPatients := by
  obtain ⟨f, hf, _, _, hadm, _, hdis⟩ :=
    (handleDischargePatient_spec twoAdmittedState "p1" "T9").1 ⟨patientOne, by decide, rfl⟩
  have hfp : f = patientOne := by
    have h0 : twoAdmittedState.admittedPatients.find? (fun p => p.id == "p1")
        = some patientOne := by decide
    rw [h0] at hf
    injection hf with h
    exact h.symm
  rw [hfp] at hdis
  exact ⟨hadm, hdis⟩

/-- Claim C9: when two or more admitted patients share the discharged id,
every one of them is removed from the admitted collection, while only a
single record — the first match, stamped with the discharge date — is
added to the discharged collection. -/
theorem handleDischargePatient_duplicates (st : AppModel) (pid nowIso : String)
    (h2 : 2 ≤ st.admittedPatients.countP (fun p => p.id == pid)) :
    (∀ q ∈ (handleDischargePatient st pid nowIso).admittedPatients, q.id ≠ pid)
  ∧ (handleDischargePatient st pid nowIso).admittedPatients.length + 2
      ≤ st.admittedPatients.length
  ∧ ∃ f, st.admittedPatients.find? (fun p => p.id == pid) = some f
      ∧ (handleDischargePatient st pid nowIso).dischargedPatients
          = { f with dischargeDate := some nowIso } :: st.dischargedPatients
      ∧ (handleDischargePatient st pid nowIso).dischargedPatients.length
          = st.dischargedPatients.length + 1 := by
  have hpos : 0 < st.admittedPatients.countP (fun p => p.id == pid) := by omega
  obtain ⟨p, hp, hppid⟩ := List.countP_pos_iff.mp hpos
  have hs : (st.admittedPatients.find? (fun p => p.id == pid)).isSome := by
    rw [List.find?_isSome]
    exact ⟨p, hp, hppid⟩
  obtain ⟨f, hf⟩ := Option.isSome_iff_exists.mp hs
  have hadm : (handleDischargePatient st pid nowIso).admittedPatients
      = st.admittedPatients.filter (fun p => p.id != pid) := by
    unfold handleDischargePatient
    rw [hf]
  refine ⟨?_, ?_, f, hf, ?_, ?_⟩
  · intro q hq
    rw [hadm] at hq
    have := (List.mem_filter.mp hq).2
    simpa using this
  · rw [hadm]
    have hlen : (st.admittedPatients.filter (fun p => p.id != pid)).length
        + st.admittedPatients.countP (fun p => p.id == pid)
        = st.admittedPatients.length := by
      rw [← List.countP_eq_length_filter]
      have h := List.length_eq_countP_add_countP
        (fun p : Patient => p.id == pid) (l := st.admittedPatients)
      have hc : st.admittedPatients.countP (fun p => p.id != pid)
          = st.admittedPatients.countP (fun p => decide ¬((p.id == pid) = true)) := by
        apply List.countP_congr
        intro q _
        cases h' : q.id == pid <;> simp [bne, h']
      rw [hc]
      omega
    omega
  · unfold handleDischargePatient
    rw [hf]
  · unfold handleDischargePatient
    rw [hf]
    simp

/-- Witness for C9: discharging an id shared by two admitted patients. -/
theorem handleDischargePatient_duplicates_witness :
    (handleDischargePatient duplicateIdState "p1" "T9").admittedPatients.length + 2
      ≤ duplicateIdState.admittedPatients.length
  ∧ (handleDischargePatient duplicateIdState "p1" "T9").dischargedPatients
      = { patientOne with dischargeDate := some "T9" } :: duplicateIdState.dischargedPatients := by
  obtain ⟨_, hlen, f, hf, hdis, _⟩ :=
    handleDischargePatient_duplicates duplicateIdState "p1" "T9" (by decide)
  have hfp : f = patientOne := by
    have h0 : duplicateIdState.admittedPatients.find? (fun p => p.id == "p1")
        = some patientOne := by decide
    rw [h0] at hf
    injection hf with h
    exact h.symm
  rw [hfp] at hdis
  exact ⟨hlen, hdis⟩

/-- Claim C10: the admission workflow never modifies the section list,
the staff list or the discharged collection; the discharge workflow never
modifies the section list or the staff list, keeps every admitted patient
whose id differs from the discharged id, and introduces no patient that
was not admitted before. -/
theorem workflows_frame (st : AppModel) (d : PatientAdmissionData)
    (r : Except Unit (Option Assignment)) (newId nowIso u1 u2 pid dnow : String) :
    ((handleAdmitPatient st d r newId nowIso u1 u2).state.sections = st.sections
      ∧ (handleAdmitPatient st d r newId nowIso u1 u2).state.staff = st.staff
      ∧ (handleAdmitPatient st d r newId nowIso u1 u2).state.dischargedPatients
          = st.dischargedPatients)
  ∧ ((handleDischargePatient st pid dnow).sections = st.sections
      ∧ (handleDischargePatient st pid dnow).staff = st.staff
      ∧ (∀ p ∈ st.admittedPatients, p.id ≠ pid →
            p ∈ (handleDischargePatient st pid dnow).admittedPatients)
      ∧ (∀ p ∈ (handleDischargePatient st pid dnow).admittedPatients,
            p ∈ st.admittedPatients)) := by
  constructor
  · rcases admit_outcome st d r newId nowIso u1 u2 with ⟨hst, _⟩ |
      ⟨a, sec, _, _, _, _, _, _, _, _, hsec, hstaff, hdis⟩
    · exact ⟨by rw [hst], by rw [hst], by rw [hst]⟩
    · exact ⟨hsec, hstaff, hdis⟩
  · unfold handleDischargePatient
    cases hf : st.admittedPatients.find? (fun p => p.id == pid) with
    | none => exact ⟨rfl, rfl, fun p hp _ => hp, fun p hp => hp⟩
    | some f =>
      refine ⟨rfl, rfl, ?_, ?_⟩
      · intro p hp hne
        exact List.mem_filter.mpr ⟨hp, by simpa using hne⟩
      · intro p hp
        exact (List.mem_filter.mp hp).1

/-- Witness for C10: discharging `"p1"` keeps `patientTwo` admitted and
leaves sections and staff untouched. -/
theorem workflows_frame_witness :
    (handleDischargePatient twoAdmittedState "p1" "T9").sections
        = twoAdmittedState.sections
  ∧ patientTwo ∈ (handleDischargePatient twoAdmittedState "p1" "T9").admittedPatients := by
  have h := workflows_frame twoAdmittedState alice (.error ()) "p" "T" "u" "v" "p1" "T9"
  exact ⟨h.2.1, h.2.2.2.1 patientTwo (by decide) (by decide)⟩

/-!
## C8: startup configuration loading
-/

/-- Claim C8: `getInitialState` is a total function (never throws); the
first-run flag is set exactly when the stored configuration is absent or
fails to yield a `{sections, staff}` object inside the `try` block, and
in that case both lists are empty; a value that parses is returned with
missing fields defaulting to empty lists and the state marked as not
first-run. -/
theorem getInitialState_spec (c : StoredConfig) :
    ((getInitialState c).isInitialSetup = true ↔ c = .absent ∨ c = .unparseable)
  ∧ (c = .absent ∨ c = .unparseable →
      (getInitialState c).sections = [] ∧ (getInitialState c).staff = [])
  ∧ (∀ s t, c = .parsed s t →
      (getInitialState c).sections = s.getD []
    ∧ (getInitialState c).staff = t.getD []
    ∧ (getInitialState c).isInitialSetup = false) := by
  cases c with
  | absent => refine ⟨by simp [getInitialState], fun _ => ⟨rfl, rfl⟩, ?_⟩
              intro s t h; exact nomatch h
  | unparseable => refine ⟨by simp [getInitialState], fun _ => ⟨rfl, rfl⟩, ?_⟩
                   intro s t h; exact nomatch h
  | parsed s t =>
      refine ⟨by simp [getInitialState], ?_, ?_⟩
      · rintro (h | h) <;> exact nomatch h
      · rintro s' t' ⟨⟩
        exact ⟨rfl, rfl, rfl⟩

/-- Witness for C8: a stored configuration with a sections list and no
staff field loads those sections, an empty staff list, and is not
first-run. -/
theorem getInitialState_spec_witness :
    (getInitialState (.parsed (some [wardA]) none)).sections = [wardA]
  ∧ (getInitialState (.parsed (some [wardA]) none)).staff = []
  ∧ (getInitialState (.parsed (some [wardA]) none)).isInitialSetup = false := by
  have h := (getInitialState_spec (.parsed (some [wardA]) none)).2.2
    (some [wardA]) none rfl
  simpa using h

/-!
## C4: pre-flight resource exhaustion
-/

/-- The eligible-section list is empty exactly when every section is at
or above capacity. -/
theorem availableSectionsOf_eq_nil_iff (st : AppModel) :
    availableSectionsOf st = []
      ↔ ∀ s ∈ st.sections, s.capacity ≤ sectionOccupancy st.admittedPatients s.id := by
  simp [availableSectionsOf, List.filter_eq_nil_iff]

/-- The eligible-doctor list is empty exactly when every non-nurse staff
member already appears as some admitted patient's doctor. -/
theorem availableDoctorsOf_eq_nil_iff (st : AppModel) :
    availableDoctorsOf st = []
      ↔ ∀ s ∈ st.staff, lowerString s.role ≠ "nurse" →
          s.id ∈ assignedDoctorIdsOf st.admittedPatients := by
  simp [availableDoctorsOf, List.filter_eq_nil_iff]

/-- The eligible-nurse list is empty exactly when every nurse already
appears as some admitted patient's nurse. -/
theorem availableNursesOf_eq_nil_iff (st : AppModel) :
    availableNursesOf st = []
      ↔ ∀ s ∈ st.staff, lowerString s.role = "nurse" →
          s.id ∈ assignedNurseIdsOf st.admittedPatients := by
  simp [availableNursesOf, List.filter_eq_nil_iff]

/-- The ghost-staffed hospital used by the C4 counterexample: reachable
from an empty admitted collection by one admission whose resolver named a
nonexistent doctor id and the (doctor-roled) id `"d1"` as nurse. -/
def crossSlotState : AppModel :=
  runOps ⟨[wardA], [doctorOne, nurseOne], [], [], emptyNotifStore⟩
    [.admitPatient alice (.ok (some ⟨"s1", "dx", "d1", "r"⟩)) "p1" "T1" "u1" "u2"]

/-- Claim C4, as stated, is false: in `crossSlotState` the only
non-nurse staff member (`"d1"`) is already assigned — it appears as the
admitted patient's `assignedNurseId` — so by the claim the next
admission must fail with the doctor-exhaustion error without consulting
the resolver.  The code only checks the doctor slot
(`assignedDoctorIds`), finds `"d1"` free there, invokes the resolver and
commits the admission. -/
theorem claimC4_counterexample :
    (∀ s ∈ crossSlotState.staff, lowerString s.role ≠ "nurse" →
        (s.id ∈ assignedDoctorIdsOf crossSlotState.admittedPatients
          ∨ s.id ∈ assignedNurseIdsOf crossSlotState.admittedPatients))
  ∧ (handleAdmitPatient crossSlotState alice (.ok (some ⟨"s1", "d1", "n1", "r"⟩))
        "p2" "T2" "u3" "u4").resolverInvoked = true
  ∧ (handleAdmitPatient crossSlotState alice (.ok (some ⟨"s1", "d1", "n1", "r"⟩))
        "p2" "T2" "u3" "u4").result = .success := by decide

/-- Claim C4 (amended): with "unassigned" read slot-wise — doctors are
checked only against ids in use as `assignedDoctorId`, nurses only
against ids in use as `assignedNurseId` — the pre-flight checks behave
as claimed: beds first, then doctors, then nurses; on the first
exhausted resource the workflow stops with that resource's error, the
resolver is not invoked, and the state is returned unchanged. -/
theorem admit_preflight_spec (st : AppModel) (d : PatientAdmissionData)
    (r : Except Unit (Option Assignment)) (newId nowIso u1 u2 : String) :
    ((∀ s ∈ st.sections, s.capacity ≤ sectionOccupancy st.admittedPatients s.id) →
      handleAdmitPatient st d r newId nowIso u1 u2 = ⟨st, .noBeds, false⟩)
  ∧ ((∃ s ∈ st.sections, sectionOccupancy st.admittedPatients s.id < s.capacity) →
     (∀ s ∈ st.staff, lowerString s.role ≠ "nurse" →
        s.id ∈ assignedDoctorIdsOf st.admittedPatients) →
      handleAdmitPatient st d r newId nowIso u1 u2 = ⟨st, .noDoctors, false⟩)
  ∧ ((∃ s ∈ st.sections, sectionOccupancy st.admittedPatients s.id < s.capacity) →
     (∃ s ∈ st.staff, lowerString s.role ≠ "nurse"
        ∧ s.id ∉ assignedDoctorIdsOf st.admittedPatients) →
     (∀ s ∈ st.staff, lowerString s.role = "nurse" →
        s.id ∈ assignedNurseIdsOf st.admittedPatients) →
      handleAdmitPatient st d r newId nowIso u1 u2 = ⟨st, .noNurses, false⟩) := by
  refine ⟨?_, ?_, ?_⟩
  · intro h
    have h0 : (availableSectionsOf st).length = 0 := by
      rw [List.length_eq_zero, availableSectionsOf_eq_nil_iff]
      exact h
    unfold handleAdmitPatient
    rw [if_pos h0]
  · intro hsec hdoc
    have hS : ¬(availableSectionsOf st).length = 0 := by
      rw [List.length_eq_zero, availableSectionsOf_eq_nil_iff]
      obtain ⟨s, hs, hlt⟩ := hsec
      intro hall
      exact absurd (hall s hs) (Nat.not_le.mpr hlt)
    have hD : (availableDoctorsOf st).length = 0 := by
      rw [List.length_eq_zero, availableDoctorsOf_eq_nil_iff]
      exact hdoc
    unfold handleAdmitPatient
    rw [if_neg hS, if_pos hD]
  · intro hsec hdoc hnur
    have hS : ¬(availableSectionsOf st).length = 0 := by
      rw [List.length_eq_zero, availableSectionsOf_eq_nil_iff]
      obtain ⟨s, hs, hlt⟩ := hsec
      intro hall
      exact absurd (hall s hs) (Nat.not_le.mpr hlt)
    have hD : ¬(availableDoctorsOf st).length = 0 := by
      rw [List.length_eq_zero, availableDoctorsOf_eq_nil_iff]
      obtain ⟨s, hs, hrole, hfree⟩ := hdoc
      intro hall
      exact hfree (hall s hs hrole)
    have hN : (availableNursesOf st).length = 0 := by
      rw [List.length_eq_zero, availableNursesOf_eq_nil_iff]
      exact hnur
    unfold handleAdmitPatient
    rw [if_neg hS, if_neg hD, if_pos hN]

/-- Witness for C4 (amended): with one free bed, a free doctor and no
free nurse, the attempt fails with the nurse-exhaustion error and the
resolver is not consulted. -/
theorem admit_preflight_spec_witness :
    handleAdmitPatient ⟨[wardA], [doctorOne], [], [], emptyNotifStore⟩ alice
        (.error ()) "p1" "T1" "u1" "u2"
      = ⟨⟨[wardA], [doctorOne], [], [], emptyNotifStore⟩, .noNurses, false⟩ :=
  (admit_preflight_spec ⟨[wardA], [doctorOne], [], [], emptyNotifStore⟩ alice
      (.error ()) "p1" "T1" "u1" "u2").2.2
    ⟨wardA, by decide, by decide⟩
    ⟨doctorOne, by decide, by decide, by decide⟩
    (by decide)

/-!
## C7: notification fan-out
-/

/-- Distinct staff ids yield distinct notification storage keys. -/
theorem notificationKey_inj {x y : String} (h : notificationKey x = notificationKey y) :
    x = y := by
  unfold notificationKey at h
  have hd := congrArg String.data h
  simp only [String.data_append] at hd
  exact String.ext (List.append_cancel_left hd)

/-- `createNotification` at the written key: appends to a stored list,
creates a singleton list when the key was absent, and leaves a corrupt
value untouched (the caught `JSON.parse` failure). -/
theorem createNotification_at_key (store : String → NotifState) (sid : String)
    (patient : Patient) (uuid nowIso : String) :
    (store (notificationKey sid) = .absent →
      createNotification store sid patient uuid nowIso (notificationKey sid)
        = .stored [mkNotification patient uuid nowIso])
  ∧ (∀ l, store (notificationKey sid) = .stored l →
      createNotification store sid patient uuid nowIso (notificationKey sid)
        = .stored (l ++ [mkNotification patient uuid nowIso]))
  ∧ (store (notificationKey sid) = .corrupt →
      createNotification store sid patient uuid nowIso (notificationKey sid)
        = .corrupt) := by
  unfold createNotification
  refine ⟨fun h => ?_, fun l h => ?_, fun h => ?_⟩ <;> simp [h]

/-- `createNotification` never touches any other key. -/
theorem createNotification_other_key (store : String → NotifState) (sid : String)
    (patient : Patient) (uuid nowIso : String) (k : String)
    (h : k ≠ notificationKey sid) :
    createNotification store sid patient uuid nowIso k = store k := by
  unfold createNotification
  cases hs : store (notificationKey sid) <;> simp [h]

/-- Claim C7: on a successful admission whose resolved doctor and nurse
ids belong to (distinct) staff members, one notification is appended to
each of the two staff members' persisted lists, preserving everything
previously stored there (an absent list starts as a singleton); a
corrupt stored list makes that one write fail silently, while the
admission itself and the other staff member's notification are
unaffected. -/
theorem admit_notification_fanout (st : AppModel) (d : PatientAdmissionData)
    (a : Assignment) (newId nowIso u1 u2 : String) (doc nur : StaffMember)
    (hres : (handleAdmitPatient st d (.ok (some a)) newId nowIso u1 u2).result
      = .success)
    (hdoc : st.staff.find? (fun s => s.id == a.doctorId) = some doc)
    (hnur : st.staff.find? (fun s => s.id == a.nurseId) = some nur)
    (hne : doc.id ≠ nur.id) :
    (handleAdmitPatient st d (.ok (some a)) newId nowIso u1 u2).state.admittedPatients
        = st.admittedPatients ++ [mkNewPatient d a newId nowIso]
  ∧ (st.notifications (notificationKey doc.id) = .absent →
      (handleAdmitPatient st d (.ok (some a)) newId nowIso u1 u2).state.notifications
          (notificationKey doc.id)
        = .stored [mkNotification (mkNewPatient d a newId nowIso) u1 nowIso])
  ∧ (∀ l, st.notifications (notificationKey doc.id) = .stored l →
      (handleAdmitPatient st d (.ok (some a)) newId nowIso u1 u2).state.notifications
          (notificationKey doc.id)
        = .stored (l ++ [mkNotification (mkNewPatient d a newId nowIso) u1 nowIso]))
  ∧ (st.notifications (notificationKey doc.id) = .corrupt →
      (handleAdmitPatient st d (.ok (some a)) newId nowIso u1 u2).state.notifications
          (notificationKey doc.id) = .corrupt)
  ∧ (st.notifications (notificationKey nur.id) = .absent →
      (handleAdmitPatient st d (.ok (some a)) newId nowIso u1 u2).state.notifications
          (notificationKey nur.id)
        = .stored [mkNotification (mkNewPatient d a newId nowIso) u2 nowIso])
  ∧ (∀ l, st.notifications (notificationKey nur.id) = .stored l →
      (handleAdmitPatient st d (.ok (some a)) newId nowIso u1 u2).state.notifications
          (notificationKey nur.id)
        = .stored (l ++ [mkNotification (mkNewPatient d a newId nowIso) u2 nowIso]))
  ∧ (st.notifications (notificationKey nur.id) = .corrupt →
      (handleAdmitPatient st d (.ok (some a)) newId nowIso u1 u2).state.notifications
          (notificationKey nur.id) = .corrupt) := by
  have hstate : (handleAdmitPatient st d (.ok (some a)) newId nowIso u1 u2).state.notifications
      = createNotification
          (createNotification st.notifications doc.id (mkNewPatient d a newId nowIso) u1 nowIso)
          nur.id (mkNewPatient d a newId nowIso) u2 nowIso
    ∧ (handleAdmitPatient st d (.ok (some a)) newId nowIso u1 u2).state.admittedPatients
      = st.admittedPatients ++ [mkNewPatient d a newId nowIso] := by
    unfold handleAdmitPatient at hres ⊢
    by_cases h1 : (availableSectionsOf st).length = 0
    · rw [if_pos h1] at hres; exact (nomatch hres)
    rw [if_neg h1] at hres ⊢
    by_cases h2 : (availableDoctorsOf st).length = 0
    · rw [if_pos h2] at hres; exact (nomatch hres)
    rw [if_neg h2] at hres ⊢
    by_cases h3 : (availableNursesOf st).length = 0
    · rw [if_pos h3] at hres; exact (nomatch hres)
    rw [if_neg h3] at hres ⊢
    dsimp only at hres ⊢
    by_cases h4 : a.sectionId = "" ∨ a.doctorId = "" ∨ a.nurseId = ""
    · rw [if_pos h4] at hres; exact (nomatch hres)
    rw [if_neg h4] at hres ⊢
    cases hfind : st.sections.find? (fun s => s.id == a.sectionId) with
    | none =>
      rw [hfind] at hres
      exact (nomatch hres)
    | some sec =>
      rw [hfind] at hres
      dsimp only at hres ⊢
      by_cases h5 : sec.capacity ≤ sectionOccupancy st.admittedPatients a.sectionId
      · rw [if_pos h5] at hres; exact (nomatch hres)
      rw [if_neg h5] at hres ⊢
      have hpd : (mkNewPatient d a newId nowIso).assignedDoctorId = a.doctorId := rfl
      have hpn : (mkNewPatient d a newId nowIso).assignedNurseId = a.nurseId := rfl
      rw [hpd, hpn, hdoc, hnur]
      exact ⟨rfl, rfl⟩
  have key_dn : notificationKey doc.id ≠ notificationKey nur.id :=
    fun h => hne (notificationKey_inj h)
  have hother : createNotification st.notifications doc.id
      (mkNewPatient d a newId nowIso) u1 nowIso (notificationKey nur.id)
      = st.notifications (notificationKey nur.id) :=
    createNotification_other_key _ _ _ _ _ _ key_dn.symm
  refine ⟨hstate.2, ?_, ?_, ?_, ?_, ?_, ?_⟩
  · intro h
    rw [hstate.1,
      createNotification_other_key _ _ _ _ _ _ key_dn]
    exact (createNotification_at_key st.notifications doc.id _ u1 nowIso).1 h
  · intro l h
    rw [hstate.1,
      createNotification_other_key _ _ _ _ _ _ key_dn]
    exact (createNotification_at_key st.notifications doc.id _ u1 nowIso).2.1 l h
  · intro h
    rw [hstate.1,
      createNotification_other_key _ _ _ _ _ _ key_dn]
    exact (createNotification_at_key st.notifications doc.id _ u1 nowIso).2.2 h
  · intro h
    rw [hstate.1]
    exact (createNotification_at_key _ nur.id _ u2 nowIso).1 (hother.trans h)
  · intro l h
    rw [hstate.1]
    exact (createNotification_at_key _ nur.id _ u2 nowIso).2.1 l (hother.trans h)
  · intro h
    rw [hstate.1]
    exact (createNotification_at_key _ nur.id _ u2 nowIso).2.2 (hother.trans h)

/-- Witness for C7: a successful admission in `baseState` leaves one
notification in the doctor's list and one in the nurse's list. -/
theorem admit_notification_fanout_witness :
    (handleAdmitPatient baseState alice (.ok (some ⟨"s1", "d1", "n1", "r"⟩))
        "p1" "T1" "u1" "u2").state.notifications (notificationKey "d1")
      = .stored [mkNotification (mkNewPatient alice ⟨"s1", "d1", "n1", "r"⟩ "p1" "T1") "u1" "T1"]
  ∧ (handleAdmitPatient baseState alice (.ok (some ⟨"s1", "d1", "n1", "r"⟩))
        "p1" "T1" "u1" "u2").state.notifications (notificationKey "n1")
      = .stored [mkNotification (mkNewPatient alice ⟨"s1", "d1", "n1", "r"⟩ "p1" "T1") "u2" "T1"] := by
  have h := admit_notification_fanout baseState alice ⟨"s1", "d1", "n1", "r"⟩
    "p1" "T1" "u1" "u2" doctorOne nurseOne
    (by decide) (by decide) (by decide) (by decide)
  exact ⟨h.2.1 rfl, h.2.2.2.2.1 rfl⟩

/-!
## C3: section capacity is never exceeded
-/

/-- Neither workflow ever changes the section list. -/
theorem applyOp_sections (st : AppModel) (op : Op) :
    (applyOp st op).sections = st.sections := by
  cases op with
  | admitPatient d r newId nowIso uu1 uu2 =>
      rcases admit_outcome st d r newId nowIso uu1 uu2 with ⟨hst, _⟩ |
        ⟨a, sec, _, _, _, _, _, _, _, _, hsec, _, _⟩
      · simp only [applyOp]; rw [hst]
      · exact hsec
  | discharge pid nowIso =>
      simp only [applyOp, handleDischargePatient]
      cases hf : st.admittedPatients.find? (fun p => p.id == pid) <;> rfl

/-- Neither workflow ever changes the staff list. -/
theorem applyOp_staff (st : AppModel) (op : Op) :
    (applyOp st op).staff = st.staff := by
  cases op with
  | admitPatient d r newId nowIso uu1 uu2 =>
      rcases admit_outcome st d r newId nowIso uu1 uu2 with ⟨hst, _⟩ |
        ⟨a, sec, _, _, _, _, _, _, _, _, _, hstaff, _⟩
      · simp only [applyOp]; rw [hst]
      · exact hstaff
  | discharge pid nowIso =>
      simp only [applyOp, handleDischargePatient]
      cases hf : st.admittedPatients.find? (fun p => p.id == pid) <;> rfl

/-- Occupancy is additive over list concatenation. -/
theorem sectionOccupancy_append (l1 l2 : List Patient) (sid : String) :
    sectionOccupancy (l1 ++ l2) sid = sectionOccupancy l1 sid + sectionOccupancy l2 sid := by
  simp [sectionOccupancy, List.filter_append]

/-- Occupancy of a single patient. -/
theorem sectionOccupancy_singleton (p : Patient) (sid : String) :
    sectionOccupancy [p] sid = if p.assignedSectionId = sid then 1 else 0 := by
  by_cases h : p.assignedSectionId = sid <;> simp [sectionOccupancy, h]

/-- Removing patients can only lower occupancy. -/
theorem sectionOccupancy_filter_le (l : List Patient) (f : Patient → Bool) (sid : String) :
    sectionOccupancy (l.filter f) sid ≤ sectionOccupancy l sid := by
  exact List.Sublist.length_le ((List.filter_sublist l).filter _)

/-- The capacity invariant: no section's id is used by more admitted
patients than its capacity allows. -/
def CapacityInv (st : AppModel) : Prop :=
  ∀ s ∈ st.sections, sectionOccupancy st.admittedPatients s.id ≤ s.capacity

/-- One workflow step preserves the capacity invariant when section ids
are pairwise distinct. -/
theorem capacityInv_applyOp (st : AppModel) (op : Op)
    (hnd : (st.sections.map (·.id)).Nodup)
    (hinv : CapacityInv st) : CapacityInv (applyOp st op) := by
  cases op with
  | discharge pid nowIso =>
      simp only [applyOp, handleDischargePatient]
      cases hf : st.admittedPatients.find? (fun p => p.id == pid) with
      | none => exact hinv
      | some f =>
          intro s hs
          exact le_trans (sectionOccupancy_filter_le _ _ _) (hinv s hs)
  | admitPatient d r newId nowIso uu1 uu2 =>
      rcases admit_outcome st d r newId nowIso uu1 uu2 with ⟨hst, _⟩ |
        ⟨a, sec, hr, hres, h1, h2, h3, hfind, hocc, hadm, hsec, _, _⟩
      · simp only [applyOp]; rw [hst]; exact hinv
      · simp only [applyOp]
        intro s hs
        rw [hsec] at hs
        rw [hadm, sectionOccupancy_append, sectionOccupancy_singleton]
        have hsecmem : sec ∈ st.sections := List.mem_of_find?_eq_some hfind
        have hsecid : sec.id = a.sectionId := by simpa using List.find?_some hfind
        by_cases hid : (mkNewPatient d a newId nowIso).assignedSectionId = s.id
        · have hsid : s.id = a.sectionId := by
            rw [← hid]; rfl
          have hss : s = sec :=
            List.inj_on_of_nodup_map hnd hs hsecmem (by rw [hsid, hsecid])
          rw [if_pos hid, hsid]
          have : sectionOccupancy st.admittedPatients a.sectionId < s.capacity := by
            rw [hss]; exact hocc
          omega
        · rw [if_neg hid]
          have := hinv s hs
          omega

/-- The capacity invariant holds along any run, given distinct section ids. -/
theorem capacityInv_runOps (st : AppModel) (ops : List Op)
    (hnd : (st.sections.map (·.id)).Nodup) (hinv : CapacityInv st) :
    CapacityInv (runOps st ops) := by
  induction ops generalizing st with
  | nil => exact hinv
  | cons op ops ih =>
      exact ih (applyOp st op)
        (by rw [applyOp_sections]; exact hnd)
        (capacityInv_applyOp st op hnd hinv)

/-- Two sections sharing the id `"s1"` with different capacities. -/
def dupSectionsState : AppModel :=
  ⟨[⟨"s1", "Ward A", 2, []⟩, ⟨"s1", "Ward B", 1, []⟩],
   [doctorOne, doctorTwo, nurseOne, nurseTwo], [], [], emptyNotifStore⟩

/-- Two admissions into the duplicated section id. -/
def dupSectionsOps : List Op :=
  [.admitPatient alice (.ok (some ⟨"s1", "d1", "n1", "r"⟩)) "p1" "T1" "u1" "u2",
   .admitPatient alice (.ok (some ⟨"s1", "d2", "n2", "r"⟩)) "p2" "T2" "u3" "u4"]

/-- Claim C3, as stated, is false when two sections share an id: both
capacity checks resolve the id `"s1"` via `find?` to the first section
(capacity 2), so two patients are admitted, exceeding the second
section's capacity of 1.  The run starts from an empty admitted
collection, as the claim requires. -/
theorem claimC3_counterexample :
    dupSectionsState.admittedPatients = []
  ∧ ¬ (∀ s ∈ (runOps dupSectionsState dupSectionsOps).sections,
        sectionOccupancy (runOps dupSectionsState dupSectionsOps).admittedPatients s.id
          ≤ s.capacity) := by decide

/-- Claim C3 (amended): from an empty admitted collection, provided the
configured section ids are pairwise distinct, after any sequence of
admission and discharge operations no section's admitted count exceeds
its capacity — the post-resolution re-check alone guarantees this, with
no assumption on the resolver's responses. -/
theorem capacity_never_exceeded (init : AppModel) (ops : List Op)
    (hnd : (init.sections.map (·.id)).Nodup)
    (hempty : init.admittedPatients = []) :
    ∀ s ∈ (runOps init ops).sections,
      sectionOccupancy (runOps init ops).admittedPatients s.id ≤ s.capacity := by
  apply capacityInv_runOps init ops hnd
  intro s hs
  rw [hempty]
  exact Nat.zero_le _

/-- Witness for C3 (amended): after one admission in `baseState` the
ward's occupancy is within capacity. -/
theorem capacity_never_exceeded_witness :
    sectionOccupancy
        (runOps baseState
          [.admitPatient alice (.ok (some ⟨"s1", "d1", "n1", "r"⟩)) "p1" "T1" "u1" "u2"]).admittedPatients
        wardA.id
      ≤ wardA.capacity :=
  capacity_never_exceeded baseState
    [.admitPatient alice (.ok (some ⟨"s1", "d1", "n1", "r"⟩)) "p1" "T1" "u1" "u2"]
    (by decide) rfl wardA (by decide)

/-!
## C2: staff exclusivity
-/

/-- The staff-assignment invariant: every admitted patient's doctor slot
holds the id of a configured non-nurse, every nurse slot the id of a
configured nurse, and within each slot no id repeats. -/
def StaffAssignInv (staffL : List StaffMember) (admitted : List Patient) : Prop :=
  (∀ p ∈ admitted, ∃ s ∈ staffL,
      s.id = p.assignedDoctorId ∧ lowerString s.role ≠ "nurse")
  ∧ (∀ p ∈ admitted, ∃ s ∈ staffL,
      s.id = p.assignedNurseId ∧ lowerString s.role = "nurse")
  ∧ (admitted.map (·.assignedDoctorId)).Nodup
  ∧ (admitted.map (·.assignedNurseId)).Nodup

/-- Unpacking membership in the eligible-doctor id list. -/
theorem of_mem_availableDoctorsOf (st : AppModel) (x : String)
    (hx : x ∈ (availableDoctorsOf st).map (·.id)) :
    (∃ s ∈ st.staff, s.id = x ∧ lowerString s.role ≠ "nurse")
    ∧ x ∉ assignedDoctorIdsOf st.admittedPatients := by
  obtain ⟨s, hs, hsx⟩ := List.mem_map.mp hx
  obtain ⟨hmem, hpred⟩ := List.mem_filter.mp hs
  have hpred' : lowerString s.role ≠ "nurse"
      ∧ s.id ∉ assignedDoctorIdsOf st.admittedPatients := by
    simpa using hpred
  exact ⟨⟨s, hmem, hsx, hpred'.1⟩, by rw [← hsx]; exact hpred'.2⟩

/-- Unpacking membership in the eligible-nurse id list. -/
theorem of_mem_availableNursesOf (st : AppModel) (x : String)
    (hx : x ∈ (availableNursesOf st).map (·.id)) :
    (∃ s ∈ st.staff, s.id = x ∧ lowerString s.role = "nurse")
    ∧ x ∉ assignedNurseIdsOf st.admittedPatients := by
  obtain ⟨s, hs, hsx⟩ := List.mem_map.mp hx
  obtain ⟨hmem, hpred⟩ := List.mem_filter.mp hs
  have hpred' : lowerString s.role = "nurse"
      ∧ s.id ∉ assignedNurseIdsOf st.admittedPatients := by
    simpa using hpred
  exact ⟨⟨s, hmem, hsx, hpred'.1⟩, by rw [← hsx]; exact hpred'.2⟩

/-- A successful admission implies all three pre-flight pools were
nonempty (so the resolver was consulted). -/
theorem admit_success_preflight (st : AppModel) (d : PatientAdmissionData)
    (r : Except Unit (Option Assignment)) (newId nowIso u1 u2 : String)
    (hres : (handleAdmitPatient st d r newId nowIso u1 u2).result = .success) :
    (availableSectionsOf st).length ≠ 0
    ∧ (availableDoctorsOf st).length ≠ 0
    ∧ (availableNursesOf st).length ≠ 0 := by
  unfold handleAdmitPatient at hres
  by_cases h1 : (availableSectionsOf st).length = 0
  · rw [if_pos h1] at hres; exact (nomatch hres)
  rw [if_neg h1] at hres
  by_cases h2 : (availableDoctorsOf st).length = 0
  · rw [if_pos h2] at hres; exact (nomatch hres)
  rw [if_neg h2] at hres
  by_cases h3 : (availableNursesOf st).length = 0
  · rw [if_pos h3] at hres; exact (nomatch hres)
  exact ⟨h1, h2, h3⟩

/-- One workflow step preserves the staff-assignment invariant, provided
the step's resolver outcome honours the candidate lists. -/
theorem staffAssignInv_applyOp (st : AppModel) (op : Op)
    (hfaith : ResolverFaithful st op)
    (hinv : StaffAssignInv st.staff st.admittedPatients) :
    StaffAssignInv st.staff (applyOp st op).admittedPatients := by
  cases op with
  | discharge pid nowIso =>
      simp only [applyOp, handleDischargePatient]
      cases hf : st.admittedPatients.find? (fun p => p.id == pid) with
      | none => exact hinv
      | some f =>
          obtain ⟨hd, hn, hndd, hndn⟩ := hinv
          have hsub : List.Sublist
              (st.admittedPatients.filter (fun p => p.id != pid))
              st.admittedPatients := List.filter_sublist _
          exact ⟨fun p hp => hd p (hsub.subset hp),
            fun p hp => hn p (hsub.subset hp),
            List.Nodup.sublist (hsub.map _) hndd,
            List.Nodup.sublist (hsub.map _) hndn⟩
  | admitPatient d r newId nowIso uu1 uu2 =>
      rcases admit_outcome st d r newId nowIso uu1 uu2 with ⟨hst, _⟩ |
        ⟨a, sec, hr, hres, _, _, _, _, _, hadm, _, _, _⟩
      · simp only [applyOp]; rw [hst]; exact hinv
      · simp only [applyOp]
        rw [hadm]
        obtain ⟨hlen1, hlen2, hlen3⟩ :=
          admit_success_preflight st d r newId nowIso uu1 uu2 hres
        subst hr
        simp only [ResolverFaithful] at hfaith
        obtain ⟨hdm, hnm⟩ := hfaith hlen1 hlen2 hlen3
        obtain ⟨⟨s1, hs1, hs1id, hs1role⟩, hdnot⟩ :=
          of_mem_availableDoctorsOf st a.doctorId hdm
        obtain ⟨⟨s2, hs2, hs2id, hs2role⟩, hnnot⟩ :=
          of_mem_availableNursesOf st a.nurseId hnm
        obtain ⟨hd, hn, hndd, hndn⟩ := hinv
        refine ⟨?_, ?_, ?_, ?_⟩
        · intro p hp
          rcases List.mem_append.mp hp with h | h
          · exact hd p h
          · have hpm : p = mkNewPatient d a newId nowIso := by simpa using h
            subst hpm
            exact ⟨s1, hs1, hs1id, hs1role⟩
        · intro p hp
          rcases List.mem_append.mp hp with h | h
          · exact hn p h
          · have hpm : p = mkNewPatient d a newId nowIso := by simpa using h
            subst hpm
            exact ⟨s2, hs2, hs2id, hs2role⟩
        · rw [List.map_append]
          refine List.Nodup.append hndd (List.nodup_singleton _) ?_
          intro y hy hy'
          have hyx : y = a.doctorId := by simpa using hy'
          subst hyx
          exact hdnot hy
        · rw [List.map_append]
          refine List.Nodup.append hndn (List.nodup_singleton _) ?_
          intro y hy hy'
          have hyx : y = a.nurseId := by simpa using hy'
          subst hyx
          exact hnnot hy

/-- The staff-assignment invariant holds along any faithful run. -/
theorem staffAssignInv_runOps (st : AppModel) (ops : List Op)
    (htrace : FaithfulTrace st ops)
    (hinv : StaffAssignInv st.staff st.admittedPatients) :
    StaffAssignInv st.staff (runOps st ops).admittedPatients := by
  induction ops generalizing st with
  | nil => exact hinv
  | cons op ops ih =>
      obtain ⟨hop, htr⟩ := htrace
      have h1 := staffAssignInv_applyOp st op hop hinv
      have h2 : StaffAssignInv (applyOp st op).staff (applyOp st op).admittedPatients := by
        rw [applyOp_staff]; exact h1
      have h3 := ih (applyOp st op) htr h2
      rw [applyOp_staff] at h3
      exact h3

/-- Under the staff-assignment invariant and pairwise-distinct staff ids,
any given id is carried (in either slot) by at most one admitted patient. -/
theorem countP_le_one_of_staffAssignInv (staffL : List StaffMember) (x : String)
    (hstnd : (staffL.map (·.id)).Nodup) :
    ∀ adm : List Patient,
      (∀ p ∈ adm, ∃ s ∈ staffL,
          s.id = p.assignedDoctorId ∧ lowerString s.role ≠ "nurse") →
      (∀ p ∈ adm, ∃ s ∈ staffL,
          s.id = p.assignedNurseId ∧ lowerString s.role = "nurse") →
      (adm.map (·.assignedDoctorId)).Nodup →
      (adm.map (·.assignedNurseId)).Nodup →
      adm.countP (fun p => p.assignedDoctorId == x || p.assignedNurseId == x) ≤ 1 := by
  have cross : ∀ y : String,
      (∃ s ∈ staffL, s.id = y ∧ lowerString s.role ≠ "nurse") →
      (∃ s ∈ staffL, s.id = y ∧ lowerString s.role = "nurse") → False := by
    rintro y ⟨s1, hs1, h1i, h1r⟩ ⟨s2, hs2, h2i, h2r⟩
    have h12 : s1 = s2 :=
      List.inj_on_of_nodup_map hstnd hs1 hs2 (by rw [h1i, h2i])
    exact h1r (by rw [h12]; exact h2r)
  intro adm
  induction adm with
  | nil => intro _ _ _ _; simp
  | cons p rest ih =>
      intro hd hn hndd hndn
      rw [List.countP_cons]
      rw [List.map_cons] at hndd hndn
      obtain ⟨hpd, hnddr⟩ := List.nodup_cons.mp hndd
      obtain ⟨hpn, hndnr⟩ := List.nodup_cons.mp hndn
      have hdrest : ∀ q ∈ rest, ∃ s ∈ staffL,
          s.id = q.assignedDoctorId ∧ lowerString s.role ≠ "nurse" :=
        fun q hq => hd q (List.mem_cons_of_mem _ hq)
      have hnrest : ∀ q ∈ rest, ∃ s ∈ staffL,
          s.id = q.assignedNurseId ∧ lowerString s.role = "nurse" :=
        fun q hq => hn q (List.mem_cons_of_mem _ hq)
      by_cases hp : (p.assignedDoctorId == x || p.assignedNurseId == x) = true
      · rw [if_pos hp]
        have hrest0 : rest.countP
            (fun p => p.assignedDoctorId == x || p.assignedNurseId == x) = 0 := by
          rw [List.countP_eq_zero]
          intro q hq hqp
          simp only [Bool.or_eq_true, beq_iff_eq] at hp hqp
          rcases hp with hp1 | hp2 <;> rcases hqp with hq1 | hq2
          · have hm : q.assignedDoctorId ∈ rest.map (·.assignedDoctorId) :=
              List.mem_map_of_mem _ hq
            rw [hq1, ← hp1] at hm
            exact hpd hm
          · refine cross x ?_ ?_
            · obtain ⟨s, hs, hsi, hsr⟩ := hd p (List.mem_cons_self _ _)
              exact ⟨s, hs, by rw [hsi, hp1], hsr⟩
            · obtain ⟨s, hs, hsi, hsr⟩ := hnrest q hq
              exact ⟨s, hs, by rw [hsi, hq2], hsr⟩
          · refine cross x ?_ ?_
            · obtain ⟨s, hs, hsi, hsr⟩ := hdrest q hq
              exact ⟨s, hs, by rw [hsi, hq1], hsr⟩
            · obtain ⟨s, hs, hsi, hsr⟩ := hn p (List.mem_cons_self _ _)
              exact ⟨s, hs, by rw [hsi, hp2], hsr⟩
          · have hm : q.assignedNurseId ∈ rest.map (·.assignedNurseId) :=
              List.mem_map_of_mem _ hq
            rw [hq2, ← hp2] at hm
            exact hpn hm
        rw [hrest0]
      · rw [if_neg hp]
        have := ih hdrest hnrest hnddr hndnr
        omega

/-- A run from the empty admitted collection in which the resolver names
the already-assigned doctor `"d1"` a second time. -/
def doubleAssignOps : List Op :=
  [.admitPatient alice (.ok (some ⟨"s1", "d1", "n1", "r"⟩)) "p1" "T1" "u1" "u2",
   .admitPatient alice (.ok (some ⟨"s1", "d1", "n2", "r"⟩)) "p2" "T2" "u3" "u4"]

/-- Claim C2, as stated (resolver modelled as returning arbitrary
responses), is false: the workflow excludes busy staff from the
candidate lists it sends to the resolver, but never validates the
response ids against those lists, so a resolver answer repeating the
busy doctor id `"d1"` is committed blindly, and after two admissions
from an empty collection the id `"d1"` is carried by two admitted
patients. -/
theorem claimC2_counterexample :
    baseState.admittedPatients = []
  ∧ (runOps baseState doubleAssignOps).admittedPatients.countP
      (fun p => p.assignedDoctorId == "d1" || p.assignedNurseId == "d1") = 2 := by decide

/-- Claim C2 (amended): from an empty admitted collection, if staff ids
are pairwise distinct and the resolver honours its contract — whenever
consulted, its doctor and nurse ids are drawn from the candidate lists
passed to it — then after any sequence of admission and discharge
operations, no staff id is carried, in either assignment slot, by more
than one currently-admitted patient. -/
theorem staff_never_double_assigned (init : AppModel) (ops : List Op)
    (hstaffnd : (init.staff.map (·.id)).Nodup)
    (hempty : init.admittedPatients = [])
    (htrace : FaithfulTrace init ops) (x : String) :
    (runOps init ops).admittedPatients.countP
      (fun p => p.assignedDoctorId == x || p.assignedNurseId == x) ≤ 1 := by
  have hinv0 : StaffAssignInv init.staff init.admittedPatients := by
    rw [hempty]
    exact ⟨fun p hp => absurd hp (List.not_mem_nil p),
      fun p hp => absurd hp (List.not_mem_nil p), List.nodup_nil, List.nodup_nil⟩
  have hinv := staffAssignInv_runOps init ops htrace hinv0
  exact countP_le_one_of_staffAssignInv init.staff x hstaffnd _
    hinv.1 hinv.2.1 hinv.2.2.1 hinv.2.2.2

/-- Witness for C2 (amended): one faithful admission in `baseState`. -/
theorem staff_never_double_assigned_witness :
    (runOps baseState
        [.admitPatient alice (.ok (some ⟨"s1", "d1", "n1", "r"⟩)) "p1" "T1" "u1" "u2"]).admittedPatients.countP
      (fun p => p.assignedDoctorId == "d1" || p.assignedNurseId == "d1") ≤ 1 := by
  refine staff_never_double_assigned baseState
    [.admitPatient alice (.ok (some ⟨"s1", "d1", "n1", "r"⟩)) "p1" "T1" "u1" "u2"]
    (by decide) rfl ?_ "d1"
  refine ⟨?_, trivial⟩
  simp only [ResolverFaithful]
  intro _ _ _
  exact ⟨by decide, by decide⟩

/-- Witness for C1 (amended): the commit-or-unchanged dichotomy at a
concrete successful run. -/
theorem admit_commit_or_unchanged_witness :
    ((handleAdmitPatient baseState alice (.ok (some ⟨"s1", "d1", "n1", "r"⟩))
        "p1" "T1" "u1" "u2").result = .success
      ∧ ∃ p, (handleAdmitPatient baseState alice (.ok (some ⟨"s1", "d1", "n1", "r"⟩))
            "p1" "T1" "u1" "u2").state.admittedPatients
            = baseState.admittedPatients ++ [p]
          ∧ p.assignedSectionId ≠ "" ∧ p.assignedDoctorId ≠ "" ∧ p.assignedNurseId ≠ ""
          ∧ p.admissionDate = "T1" ∧ p.id = "p1"
          ∧ ∃ s, s ∈ baseState.sections ∧ s.id = p.assignedSectionId
              ∧ sectionOccupancy baseState.admittedPatients s.id < s.capacity)
  ∨ ((handleAdmitPatient baseState alice (.ok (some ⟨"s1", "d1", "n1", "r"⟩))
        "p1" "T1" "u1" "u2").result ≠ .success
      ∧ (handleAdmitPatient baseState alice (.ok (some ⟨"s1", "d1", "n1", "r"⟩))
        "p1" "T1" "u1" "u2").state.admittedPatients = baseState.admittedPatients) :=
  admit_commit_or_unchanged baseState alice (.ok (some ⟨"s1", "d1", "n1", "r"⟩))
    "p1" "T1" "u1" "u2"
